import Mathlib

/-!
Verification development for the batched, whitelist-aware bulk
group-membership removal workflow of the Whatsapp-MCP repository.

The two source files embedded here are `batch_remove_duplicates.py`
(namespace `BatchRD`) and `group_management.py` (namespace `GM`).
HTTP traffic is modelled explicitly: every outgoing removal request is
recorded as a `Request` value (URL, participant list, action, and the
timeout argument passed to `session.post`), and the bridge's behaviour
is an oracle `String → String → BridgeResponse` mapping a
(group, participant) pair either to an HTTP response (status code and
body text) or to a raised transport exception.  Sleeps performed by the
rate-limiting loops are recorded as `Event.sleep` entries in the trace.
-/

namespace WhatsappMCP

/-- An HTTP request issued through `session.post`: the URL, the JSON
payload fields (`participants`, `action`), and the `timeout=` keyword
argument (`none` when the Python call passes no timeout). -/
structure Request where
  url : String
  participants : List String
  action : String
  timeout : Option Nat
deriving DecidableEq, Repr

/-- Observable side effects of the removal loops: an HTTP request to the
bridge, or a `time.sleep(seconds)` call. -/
inductive Event where
  | request (r : Request)
  | sleep (seconds : Nat)
deriving DecidableEq, Repr

/-- What `session.post` produces: either an HTTP response carrying a
status code and a body text, or a raised exception carrying a message
(`requests` network/timeout errors). -/
inductive BridgeResponse where
  | http (status : Nat) (text : String)
  | netError (msg : String)
deriving DecidableEq, Repr

/-- A contact row as parsed from the input CSV by
`load_common_contacts` / `read_common_contacts_csv`. -/
structure Contact where
  name : String
  jid : String
  source : String
  is_admin : Bool
  is_super_admin : Bool
deriving DecidableEq, Repr

/-- The content handed to a whitelist loader by the file system: the
file is missing, or it yields a list of lines, `io_error = true`
meaning an I/O error was raised after those lines were delivered
(the `except Exception` branch of the loaders). -/
inductive FileRead where
  | missing
  | content (lines : List String) (io_error : Bool)
deriving DecidableEq, Repr

/-- Python's `str.strip()`: drop leading and trailing whitespace
(modelled structurally on the character list so it is kernel-evaluable). -/
def strip (s : String) : String :=
  String.mk
    ((s.data.dropWhile Char.isWhitespace).reverse.dropWhile
      Char.isWhitespace).reverse

/-- Python's `str.startswith('#')`: the first character is `#`. -/
def starts_with_hash (s : String) : Bool :=
  match s.data with
  | [] => false
  | c :: _ => c = '#'

/-- The line-processing loop shared by both whitelist loaders: each
line is stripped; non-empty lines not starting with `#` are added to
the whitelist set (modelled as a list, membership being what matters). -/
def parse_whitelist : List String → List String
  | [] => []
  | line :: rest =>
      if strip line ≠ "" ∧ ¬ starts_with_hash (strip line)
      then strip line :: parse_whitelist rest
      else parse_whitelist rest

namespace BatchRD

/-- `RemovalResult` dataclass of `batch_remove_duplicates.py`. -/
structure RemovalResult where
  jid : String
  group_jid : String
  success : Bool
  message : String
  skipped : Bool := false
  skip_reason : Option String := none
deriving DecidableEq, Repr

/-- Configuration state of `BatchGroupManager`. -/
structure BatchGroupManager where
  bridge_url : String
  batch_size : Nat
  delay_seconds : Nat
  whitelist : List String
deriving Repr

/-- `BatchGroupManager.load_whitelist`: missing file yields the empty
set; otherwise the delivered lines are parsed; an I/O error raised
mid-read leaves the set at whatever was parsed before the error. -/
def load_whitelist : FileRead → List String
  | .missing => []
  | .content lines _ => parse_whitelist lines

/-- `BatchGroupManager.is_whitelisted`. -/
def is_whitelisted (m : BatchGroupManager) (jid : String) : Bool :=
  m.whitelist.contains jid

/-- `BatchGroupManager.remove_group_participant`: whitelisted contacts
are skipped with no request; otherwise a POST with `timeout=15` is
issued and the result depends only on the HTTP status code (200 means
success; any other status is a failure whose message preserves the
status and body; a raised exception is a failure with the transport
message).  Returns the `RemovalResult` and the list of emitted events. -/
def remove_group_participant (m : BatchGroupManager)
    (bridge : String → String → BridgeResponse)
    (group_jid participant_jid : String) : RemovalResult × List Event :=
  if is_whitelisted m participant_jid then
    ({ jid := participant_jid, group_jid := group_jid, success := false,
       message := "Skipped - contact is whitelisted",
       skipped := true, skip_reason := some "whitelisted" }, [])
  else
    let req : Request :=
      { url := m.bridge_url ++ "/api/group/" ++ group_jid ++ "/participants/remove",
        participants := [participant_jid], action := "remove",
        timeout := some 15 }
    match bridge group_jid participant_jid with
    | .http status text =>
        if status = 200 then
          ({ jid := participant_jid, group_jid := group_jid, success := true,
             message := "Successfully removed from group" }, [.request req])
        else
          ({ jid := participant_jid, group_jid := group_jid, success := false,
             message := "HTTP " ++ toString status ++ ": " ++ text }, [.request req])
    | .netError msg =>
        ({ jid := participant_jid, group_jid := group_jid, success := false,
           message := "Request failed: " ++ msg }, [.request req])

/-- `BatchGroupManager.remove_batch`: each contact of the batch, in
order, goes through `remove_group_participant`; after a call that was
not skipped and is not for the last contact, `time.sleep(delay_seconds)`
runs. -/
def remove_batch (m : BatchGroupManager)
    (bridge : String → String → BridgeResponse) (group_jid : String) :
    List Contact → List RemovalResult × List Event
  | [] => ([], [])
  | contact :: rest =>
      ((remove_group_participant m bridge group_jid contact.jid).1 ::
         (remove_batch m bridge group_jid rest).1,
       (remove_group_participant m bridge group_jid contact.jid).2 ++
         (if !(remove_group_participant m bridge group_jid contact.jid).1.skipped
             ∧ ¬ rest.isEmpty
          then [Event.sleep m.delay_seconds] else []) ++
         (remove_batch m bridge group_jid rest).2)

/-- The whitelist split performed at the top of
`process_group_in_batches` (and by the dry-run categorization of
`group_management.py`): `removable_contacts` are the contacts whose jid
is not whitelisted, `whitelisted_contacts` the others. -/
def planning_partition (m : BatchGroupManager) (contacts : List Contact) :
    List Contact × List Contact :=
  (contacts.filter (fun c => !(is_whitelisted m c.jid)),
   contacts.filter (fun c => is_whitelisted m c.jid))

/-- The batch-splitting loop `for i in range(0, len(removable), batch_size)`:
consecutive slices of size `bs`, preserving order.  (For `bs ≥ 1` this
agrees with the Python slicing; `range` with step 0 would raise.) -/
def make_batches (bs : Nat) : List Contact → List (List Contact)
  | [] => []
  | a :: l => (a :: l.take (bs - 1)) :: make_batches bs (l.drop (bs - 1))
termination_by l => l.length
decreasing_by simp [List.length_drop]; omega

/-- The validated outcome of the `(y/n/q)` approval prompt. -/
inductive Decision where
  | proceed
  | skipBatch
  | quit
deriving DecidableEq, Repr

/-- The `RemovalResult` recorded for each contact of a batch the
operator answers `n` to. -/
def user_skip_result (group_jid : String) (c : Contact) : RemovalResult :=
  { jid := c.jid, group_jid := group_jid, success := false,
    message := "Skipped by user", skipped := true,
    skip_reason := some "user_skip" }

/-- The per-batch approval loop of `process_group_in_batches`:
`decisions n` is the validated answer the operator gives for batch
number `n`.  `y` runs `remove_batch` and accumulates its results; `n`
records a `user_skip` result for every contact of the batch with no
network traffic; `q` returns the results accumulated so far. -/
def run_batches (m : BatchGroupManager)
    (bridge : String → String → BridgeResponse) (group_jid : String)
    (decisions : Nat → Decision) :
    List (List Contact) → Nat → List RemovalResult × List Event
  | [], _ => ([], [])
  | batch :: rest, n =>
      match decisions n with
      | .proceed =>
          ((remove_batch m bridge group_jid batch).1 ++
             (run_batches m bridge group_jid decisions rest (n + 1)).1,
           (remove_batch m bridge group_jid batch).2 ++
             (run_batches m bridge group_jid decisions rest (n + 1)).2)
      | .skipBatch =>
          (batch.map (user_skip_result group_jid) ++
             (run_batches m bridge group_jid decisions rest (n + 1)).1,
           (run_batches m bridge group_jid decisions rest (n + 1)).2)
      | .quit => ([], [])

/-- `BatchGroupManager.process_group_in_batches`: split off whitelisted
contacts (they are only counted in the printed plan, not recorded in
the returned results), short-circuit when nothing is removable, then
batch the removable contacts and run the approval loop from batch 1. -/
def process_group_in_batches (m : BatchGroupManager)
    (bridge : String → String → BridgeResponse)
    (decisions : Nat → Decision) (group_jid : String)
    (contacts : List Contact) : List RemovalResult × List Event :=
  let removable_contacts := (planning_partition m contacts).1
  if removable_contacts.isEmpty then ([], [])
  else run_batches m bridge group_jid decisions
         (make_batches m.batch_size removable_contacts) 1

end BatchRD

namespace GM

/-- `RemovalResult` dataclass of `group_management.py` (this variant
also carries an `error_code`). -/
structure RemovalResult where
  jid : String
  group_jid : String
  success : Bool
  message : String
  error_code : Option String := none
  skipped : Bool := false
  skip_reason : Option String := none
deriving DecidableEq, Repr

/-- Configuration state of `GroupManager`. -/
structure GroupManager where
  bridge_url : String
  whitelist : List String
deriving Repr

/-- `GroupManager.load_whitelist_from_file`: same line processing as
the batch script's loader; a missing file yields the empty set, a
mid-read I/O error leaves whatever was parsed before it. -/
def load_whitelist_from_file : FileRead → List String
  | .missing => []
  | .content lines _ => parse_whitelist lines

/-- `GroupManager.is_whitelisted`. -/
def is_whitelisted (m : GroupManager) (jid : String) : Bool :=
  m.whitelist.contains jid

/-- `GroupManager.remove_group_participant`: like the batch variant,
but the POST is issued with no `timeout=` argument, and a non-200
response additionally records `error_code = str(status_code)`. -/
def remove_group_participant (m : GroupManager)
    (bridge : String → String → BridgeResponse)
    (group_jid participant_jid : String) : RemovalResult × List Event :=
  if is_whitelisted m participant_jid then
    ({ jid := participant_jid, group_jid := group_jid, success := false,
       message := "Skipped - contact is whitelisted",
       skipped := true, skip_reason := some "whitelisted" }, [])
  else
    let req : Request :=
      { url := m.bridge_url ++ "/api/group/" ++ group_jid ++ "/participants/remove",
        participants := [participant_jid], action := "remove",
        timeout := none }
    match bridge group_jid participant_jid with
    | .http status text =>
        if status = 200 then
          ({ jid := participant_jid, group_jid := group_jid, success := true,
             message := "Successfully removed from group" }, [.request req])
        else
          ({ jid := participant_jid, group_jid := group_jid, success := false,
             message := "HTTP " ++ toString status ++ ": " ++ text,
             error_code := some (toString status) }, [.request req])
    | .netError msg =>
        ({ jid := participant_jid, group_jid := group_jid, success := false,
           message := "Request failed: " ++ msg }, [.request req])

/-- `GroupManager.bulk_remove_participants`: each jid of the input
list, in order, goes through `remove_group_participant`; after a call
that was not skipped and is not the last one, `time.sleep(delay_seconds)`
runs. -/
def bulk_remove_participants (m : GroupManager)
    (bridge : String → String → BridgeResponse) (group_jid : String)
    (delay_seconds : Nat) :
    List String → List RemovalResult × List Event
  | [] => ([], [])
  | p :: rest =>
      ((remove_group_participant m bridge group_jid p).1 ::
         (bulk_remove_participants m bridge group_jid delay_seconds rest).1,
       (remove_group_participant m bridge group_jid p).2 ++
         (if !(remove_group_participant m bridge group_jid p).1.skipped
             ∧ ¬ rest.isEmpty
          then [Event.sleep delay_seconds] else []) ++
         (bulk_remove_participants m bridge group_jid delay_seconds rest).2)

end GM

/-! Concrete sample values used by witnesses and counterexamples. -/

/-- A plain, non-whitelisted contact. -/
def c_alice : Contact := ⟨"Alice", "alice@s.whatsapp.net", "api", false, false⟩

/-- A second non-whitelisted contact. -/
def c_bob : Contact := ⟨"Bob", "bob@s.whatsapp.net", "api", false, false⟩

/-- A third non-whitelisted contact. -/
def c_carol : Contact := ⟨"Carol", "carol@s.whatsapp.net", "messages", false, false⟩

/-- A contact whose jid appears in the sample whitelist. -/
def c_keep : Contact := ⟨"Keeper", "keep@s.whatsapp.net", "api", false, false⟩

/-- A `BatchGroupManager` with the default configuration and a
one-entry whitelist protecting `keep@s.whatsapp.net`. -/
def mgr0 : BatchRD.BatchGroupManager :=
  ⟨"http://localhost:8080", 10, 2, ["keep@s.whatsapp.net"]⟩

/-- A `GroupManager` with the same one-entry whitelist. -/
def gm0 : GM.GroupManager := ⟨"http://localhost:8080", ["keep@s.whatsapp.net"]⟩

/-- A bridge that acknowledges every removal with HTTP 200. -/
def bridge_ok : String → String → BridgeResponse := fun _ _ => .http 200 "ok"

/-- A bridge that answers HTTP 200 but whose body is an explicit
failure payload (`success: false`). -/
def bridge_fail200 : String → String → BridgeResponse :=
  fun _ _ => .http 200 "\x7b\"success\": false, \"message\": \"not admin\"\x7d"

/-- A bridge on which every call raises a transport error. -/
def bridge_down : String → String → BridgeResponse :=
  fun _ _ => .netError "timeout"

/-- A bridge that raises a transport error for Bob only. -/
def bridge_bob_down : String → String → BridgeResponse :=
  fun _ p => if p = "bob@s.whatsapp.net" then .netError "timeout" else .http 200 "ok"

/-- An operator who approves every batch. -/
def dec_proceed : Nat → BatchRD.Decision := fun _ => .proceed

/-- An operator who quits at batch `k` and approves everything before. -/
def dec_quit_at (k : Nat) : Nat → BatchRD.Decision :=
  fun n => if n = k then .quit else .proceed

/-- Recognizes a `time.sleep` entry in an event trace. -/
def is_sleep : Event → Bool
  | .sleep _ => true
  | .request _ => false

/-- A `BatchGroupManager` with batch size 2 (for small concrete runs). -/
def mgr2 : BatchRD.BatchGroupManager :=
  ⟨"http://localhost:8080", 2, 2, ["keep@s.whatsapp.net"]⟩

namespace BatchRD

/-- The per-batch summary tally `[r for r in batch_results if r.success]`. -/
def successful_results (rs : List RemovalResult) : List RemovalResult :=
  rs.filter (fun r => r.success)

/-- The tally `[r for r in batch_results if not r.success and not r.skipped]`. -/
def failed_results (rs : List RemovalResult) : List RemovalResult :=
  rs.filter (fun r => !r.success && !r.skipped)

/-- The tally `[r for r in batch_results if r.skipped]`. -/
def skipped_results (rs : List RemovalResult) : List RemovalResult :=
  rs.filter (fun r => r.skipped)

end BatchRD

namespace GM

/-- The bulk-removal summary tally `[r for r in results if r.success]`. -/
def successful_results (rs : List RemovalResult) : List RemovalResult :=
  rs.filter (fun r => r.success)

/-- The tally `[r for r in results if not r.success and not r.skipped]`. -/
def failed_results (rs : List RemovalResult) : List RemovalResult :=
  rs.filter (fun r => !r.success && !r.skipped)

/-- The tally `[r for r in results if r.skipped]`. -/
def skipped_results (rs : List RemovalResult) : List RemovalResult :=
  rs.filter (fun r => r.skipped)

end GM

namespace BatchRD

theorem make_batches_cons (bs : Nat) (a : Contact) (l : List Contact) :
    make_batches bs (a :: l) =
      (a :: l.take (bs - 1)) :: make_batches bs (l.drop (bs - 1)) := by
  rw [make_batches]

theorem make_batches_eq_nil_iff (bs : Nat) (l : List Contact) :
    make_batches bs l = [] ↔ l = [] := by
  cases l with
  | nil => simp [make_batches]
  | cons a l => rw [make_batches_cons]; simp

theorem make_batches_join (bs : Nat) : ∀ l : List Contact, (make_batches bs l).flatten = l
  | [] => by simp [make_batches]
  | a :: l => by
      rw [make_batches_cons]
      have ih := make_batches_join bs (l.drop (bs - 1))
      simp [ih]
termination_by l => l.length
decreasing_by simp [List.length_drop]; omega

theorem ceil_div_step (bs n : Nat) (hbs : 1 ≤ bs) :
    (n - (bs - 1) + bs - 1) / bs + 1 = (n + 1 + bs - 1) / bs := by
  have hbs0 : 0 < bs := hbs
  rcases le_or_lt (bs - 1) n with h | h
  · have h1 : n - (bs - 1) + bs - 1 = n := by omega
    have h2 : n + 1 + bs - 1 = n + bs := by omega
    rw [h1, h2, Nat.add_div_right _ hbs0]
  · have h1 : n - (bs - 1) + bs - 1 = bs - 1 := by omega
    have h2 : n + 1 + bs - 1 = n + bs := by omega
    rw [h1, h2, Nat.add_div_right _ hbs0,
        Nat.div_eq_of_lt (by omega), Nat.div_eq_of_lt (by omega)]

theorem make_batches_length (bs : Nat) (hbs : 1 ≤ bs) :
    ∀ l : List Contact, (make_batches bs l).length = (l.length + bs - 1) / bs
  | [] => by
      simp [make_batches]
      rw [Nat.div_eq_of_lt (by omega)]
  | a :: l => by
      rw [make_batches_cons]
      have ih := make_batches_length bs hbs (l.drop (bs - 1))
      simp only [List.length_cons, ih, List.length_drop]
      exact ceil_div_step bs l.length hbs
termination_by l => l.length
decreasing_by simp [List.length_drop]; omega

theorem make_batches_sizes (bs : Nat) (hbs : 1 ≤ bs) :
    ∀ l : List Contact, ∀ b ∈ (make_batches bs l).dropLast, b.length = bs
  | [] => by simp [make_batches]
  | a :: l => by
      intro b hb
      rw [make_batches_cons] at hb
      by_cases hrest : make_batches bs (l.drop (bs - 1)) = []
      · rw [hrest] at hb
        simp at hb
      · rw [List.dropLast_cons_of_ne_nil hrest] at hb
        rcases List.mem_cons.mp hb with hb | hb
        · -- the head batch: the tail of batches is non-empty, so the
          -- remaining list is non-empty and the head slice is full
          have hd : l.drop (bs - 1) ≠ [] := by
            intro he
            rw [he] at hrest
            simp [make_batches] at hrest
          have hlen : bs - 1 < l.length := by
            by_contra hc
            push_neg at hc
            exact hd (List.drop_eq_nil_of_le hc)
          subst hb
          simp [List.length_take]
          omega
        · exact make_batches_sizes bs hbs (l.drop (bs - 1)) b hb
termination_by l => l.length
decreasing_by simp [List.length_drop]; omega

theorem remove_whitelisted (m : BatchGroupManager)
    (bridge : String → String → BridgeResponse) (g p : String)
    (h : is_whitelisted m p = true) :
    remove_group_participant m bridge g p =
      ({ jid := p, group_jid := g, success := false,
         message := "Skipped - contact is whitelisted",
         skipped := true, skip_reason := some "whitelisted" }, []) := by
  simp [remove_group_participant, h]

theorem remove_cases (m : BatchGroupManager)
    (bridge : String → String → BridgeResponse) (g p : String) :
    (is_whitelisted m p = true ∧
       remove_group_participant m bridge g p =
         ({ jid := p, group_jid := g, success := false,
            message := "Skipped - contact is whitelisted",
            skipped := true, skip_reason := some "whitelisted" }, []))
    ∨ (is_whitelisted m p = false ∧
       (remove_group_participant m bridge g p).1.skipped = false ∧
       (remove_group_participant m bridge g p).1.skip_reason = none ∧
       (remove_group_participant m bridge g p).1.jid = p ∧
       (remove_group_participant m bridge g p).2 =
         [Event.request
           { url := m.bridge_url ++ "/api/group/" ++ g ++ "/participants/remove",
             participants := [p], action := "remove", timeout := some 15 }]) := by
  cases h : is_whitelisted m p with
  | true => exact Or.inl ⟨rfl, remove_whitelisted m bridge g p h⟩
  | false =>
      refine Or.inr ⟨rfl, ?_⟩
      simp only [remove_group_participant, h]
      cases hb : bridge g p with
      | http s t =>
          by_cases hs : s = 200
          · subst hs; simp
          · simp [hs]
      | netError msg => simp

theorem remove_skipped_eq (m : BatchGroupManager)
    (bridge : String → String → BridgeResponse) (g p : String) :
    (remove_group_participant m bridge g p).1.skipped = is_whitelisted m p := by
  rcases remove_cases m bridge g p with ⟨hw, heq⟩ | ⟨hw, hsk, _⟩
  · rw [heq, hw]
  · rw [hsk, hw]

theorem remove_skipped_invariant (m : BatchGroupManager)
    (bridge : String → String → BridgeResponse) (g p : String)
    (h : (remove_group_participant m bridge g p).1.skipped = true) :
    (remove_group_participant m bridge g p).1.success = false ∧
      (remove_group_participant m bridge g p).1.skip_reason = some "whitelisted" := by
  rcases remove_cases m bridge g p with ⟨hw, heq⟩ | ⟨hw, hsk, _⟩
  · rw [heq]; exact ⟨rfl, rfl⟩
  · rw [hsk] at h; cases h

theorem remove_skip_reason_whitelisted_no_call (m : BatchGroupManager)
    (bridge : String → String → BridgeResponse) (g p : String)
    (h : (remove_group_participant m bridge g p).1.skip_reason = some "whitelisted") :
    (remove_group_participant m bridge g p).2 = [] := by
  rcases remove_cases m bridge g p with ⟨hw, heq⟩ | ⟨hw, _, hsr, _⟩
  · rw [heq]
  · rw [hsr] at h; cases h

theorem remove_trace_request (m : BatchGroupManager)
    (bridge : String → String → BridgeResponse) (g p : String) (r : Request)
    (hr : Event.request r ∈ (remove_group_participant m bridge g p).2) :
    r.participants = [p] ∧ r.action = "remove" ∧ r.timeout = some 15 ∧
      is_whitelisted m p = false := by
  rcases remove_cases m bridge g p with ⟨hw, heq⟩ | ⟨hw, _, _, _, htr⟩
  · rw [heq] at hr; simp at hr
  · rw [htr] at hr
    have := List.mem_singleton.mp hr
    cases this
    exact ⟨rfl, rfl, rfl, hw⟩

theorem remove_no_sleep (m : BatchGroupManager)
    (bridge : String → String → BridgeResponse) (g p : String) (n : Nat) :
    Event.sleep n ∉ (remove_group_participant m bridge g p).2 := by
  rcases remove_cases m bridge g p with ⟨hw, heq⟩ | ⟨hw, _, _, _, htr⟩
  · rw [heq]; simp
  · rw [htr]; simp

theorem remove_http_200 (m : BatchGroupManager)
    (bridge : String → String → BridgeResponse) (g p text : String)
    (hw : is_whitelisted m p = false) (hb : bridge g p = .http 200 text) :
    (remove_group_participant m bridge g p).1 =
      { jid := p, group_jid := g, success := true,
        message := "Successfully removed from group" } := by
  simp [remove_group_participant, hw, hb]

theorem remove_http_err (m : BatchGroupManager)
    (bridge : String → String → BridgeResponse) (g p : String) (s : Nat)
    (text : String) (hw : is_whitelisted m p = false)
    (hb : bridge g p = .http s text) (hs : s ≠ 200) :
    (remove_group_participant m bridge g p).1 =
      { jid := p, group_jid := g, success := false,
        message := "HTTP " ++ toString s ++ ": " ++ text } := by
  simp [remove_group_participant, hw, hb, hs]

theorem remove_net_err (m : BatchGroupManager)
    (bridge : String → String → BridgeResponse) (g p msg : String)
    (hw : is_whitelisted m p = false) (hb : bridge g p = .netError msg) :
    (remove_group_participant m bridge g p).1 =
      { jid := p, group_jid := g, success := false,
        message := "Request failed: " ++ msg } := by
  simp [remove_group_participant, hw, hb]

theorem remove_batch_results (m : BatchGroupManager)
    (bridge : String → String → BridgeResponse) (g : String) :
    ∀ batch : List Contact,
      (remove_batch m bridge g batch).1 =
        batch.map (fun c => (remove_group_participant m bridge g c.jid).1)
  | [] => by simp [remove_batch]
  | c :: rest => by
      simp [remove_batch, remove_batch_results m bridge g rest]

theorem remove_batch_trace_mem (m : BatchGroupManager)
    (bridge : String → String → BridgeResponse) (g : String) :
    ∀ (batch : List Contact) (r : Request),
      Event.request r ∈ (remove_batch m bridge g batch).2 →
      ∃ c ∈ batch, Event.request r ∈ (remove_group_participant m bridge g c.jid).2
  | [], r, h => by simp [remove_batch] at h
  | c :: rest, r, h => by
      simp only [remove_batch, List.mem_append] at h
      rcases h with (h | h) | h
      · exact ⟨c, List.mem_cons_self c rest, h⟩
      · exfalso
        rcases Decidable.em
            (!(remove_group_participant m bridge g c.jid).1.skipped
              ∧ ¬ rest.isEmpty) with hc | hc
        · rw [if_pos hc] at h; simp at h
        · rw [if_neg hc] at h; simp at h
      · obtain ⟨c', hc', hr⟩ := remove_batch_trace_mem m bridge g rest r h
        exact ⟨c', List.mem_cons_of_mem c hc', hr⟩

theorem remove_batch_sleep_duration (m : BatchGroupManager)
    (bridge : String → String → BridgeResponse) (g : String) :
    ∀ (batch : List Contact) (n : Nat),
      Event.sleep n ∈ (remove_batch m bridge g batch).2 → n = m.delay_seconds
  | [], n, h => by simp [remove_batch] at h
  | c :: rest, n, h => by
      simp only [remove_batch, List.mem_append] at h
      rcases h with (h | h) | h
      · exact absurd h (remove_no_sleep m bridge g c.jid n)
      · rcases Decidable.em
            (!(remove_group_participant m bridge g c.jid).1.skipped
              ∧ ¬ rest.isEmpty) with hc | hc
        · rw [if_pos hc] at h
          simpa using List.mem_singleton.mp h
        · rw [if_neg hc] at h; simp at h
      · exact remove_batch_sleep_duration m bridge g rest n h

theorem remove_filter_sleep (m : BatchGroupManager)
    (bridge : String → String → BridgeResponse) (g p : String) :
    (remove_group_participant m bridge g p).2.filter is_sleep = [] := by
  rcases remove_cases m bridge g p with ⟨hw, heq⟩ | ⟨hw, _, _, _, htr⟩
  · rw [heq]; rfl
  · rw [htr]; simp [is_sleep]

theorem remove_batch_sleep_count (m : BatchGroupManager)
    (bridge : String → String → BridgeResponse) (g : String) :
    ∀ batch : List Contact,
      ((remove_batch m bridge g batch).2.filter is_sleep).length =
        (batch.dropLast.filter (fun c => !(is_whitelisted m c.jid))).length
  | [] => by simp [remove_batch]
  | c :: rest => by
      have ih := remove_batch_sleep_count m bridge g rest
      cases hrest : rest with
      | nil =>
          simp [remove_batch, remove_filter_sleep]
      | cons c' rest' =>
          rw [← hrest]
          have hne : rest.isEmpty = false := by rw [hrest]; rfl
          have hdl : (c :: rest).dropLast = c :: rest.dropLast := by
            rw [hrest]; exact List.dropLast_cons_of_ne_nil (by simp)
          simp only [remove_batch, List.filter_append, List.length_append,
            remove_filter_sleep, List.length_nil, ih, hdl, List.filter_cons]
          rw [remove_skipped_eq m bridge g c.jid]
          cases hw : is_whitelisted m c.jid with
          | true => simp [hne]
          | false => simp [hne, is_sleep]; omega

theorem run_batches_results_mem (m : BatchGroupManager)
    (bridge : String → String → BridgeResponse) (g : String)
    (dec : Nat → Decision) :
    ∀ (batches : List (List Contact)) (n : Nat) (r : RemovalResult),
      r ∈ (run_batches m bridge g dec batches n).1 →
      (∃ c, (∃ b ∈ batches, c ∈ b) ∧
         r = (remove_group_participant m bridge g c.jid).1) ∨
        (∃ c, r = user_skip_result g c)
  | [], n, r, h => by simp [run_batches] at h
  | batch :: rest, n, r, h => by
      simp only [run_batches] at h
      cases hd : dec n with
      | proceed =>
          rw [hd] at h
          rcases List.mem_append.mp h with h | h
          · rw [remove_batch_results] at h
            obtain ⟨c, hcb, hc⟩ := List.mem_map.mp h
            exact Or.inl ⟨c, ⟨batch, List.mem_cons_self batch rest, hcb⟩, hc.symm⟩
          · rcases run_batches_results_mem m bridge g dec rest (n + 1) r h with
              ⟨c, ⟨b, hb, hcb⟩, he⟩ | h2
            · exact Or.inl ⟨c, ⟨b, List.mem_cons_of_mem batch hb, hcb⟩, he⟩
            · exact Or.inr h2
      | skipBatch =>
          rw [hd] at h
          rcases List.mem_append.mp h with h | h
          · obtain ⟨c, _, hc⟩ := List.mem_map.mp h
            exact Or.inr ⟨c, hc.symm⟩
          · rcases run_batches_results_mem m bridge g dec rest (n + 1) r h with
              ⟨c, ⟨b, hb, hcb⟩, he⟩ | h2
            · exact Or.inl ⟨c, ⟨b, List.mem_cons_of_mem batch hb, hcb⟩, he⟩
            · exact Or.inr h2
      | quit => rw [hd] at h; simp at h

theorem run_batches_trace_mem (m : BatchGroupManager)
    (bridge : String → String → BridgeResponse) (g : String)
    (dec : Nat → Decision) :
    ∀ (batches : List (List Contact)) (n : Nat) (e : Event),
      e ∈ (run_batches m bridge g dec batches n).2 →
      ∃ batch ∈ batches, e ∈ (remove_batch m bridge g batch).2
  | [], n, e, h => by simp [run_batches] at h
  | batch :: rest, n, e, h => by
      simp only [run_batches] at h
      cases hd : dec n with
      | proceed =>
          rw [hd] at h
          rcases List.mem_append.mp h with h | h
          · exact ⟨batch, List.mem_cons_self batch rest, h⟩
          · obtain ⟨b, hb, he⟩ := run_batches_trace_mem m bridge g dec rest (n + 1) e h
            exact ⟨b, List.mem_cons_of_mem batch hb, he⟩
      | skipBatch =>
          rw [hd] at h
          obtain ⟨b, hb, he⟩ := run_batches_trace_mem m bridge g dec rest (n + 1) e h
          exact ⟨b, List.mem_cons_of_mem batch hb, he⟩
      | quit => rw [hd] at h; simp at h

theorem process_results_mem (m : BatchGroupManager)
    (bridge : String → String → BridgeResponse) (dec : Nat → Decision)
    (g : String) (contacts : List Contact) (r : RemovalResult)
    (h : r ∈ (process_group_in_batches m bridge dec g contacts).1) :
    (∃ c ∈ (planning_partition m contacts).1,
       r = (remove_group_participant m bridge g c.jid).1) ∨
      (∃ c, r = user_skip_result g c) := by
  by_cases hc : ((planning_partition m contacts).1).isEmpty
  · simp [process_group_in_batches, hc] at h
  · simp only [process_group_in_batches, hc, if_false, Bool.false_eq_true,
      if_neg] at h
    rcases run_batches_results_mem m bridge g dec _ 1 r h with
      ⟨c, ⟨b, hb, hcb⟩, he⟩ | h2
    · refine Or.inl ⟨c, ?_, he⟩
      have hj : c ∈ (make_batches m.batch_size (planning_partition m contacts).1).flatten :=
        List.mem_flatten.mpr ⟨b, hb, hcb⟩
      rwa [make_batches_join] at hj
    · exact Or.inr h2

theorem process_trace_mem (m : BatchGroupManager)
    (bridge : String → String → BridgeResponse) (dec : Nat → Decision)
    (g : String) (contacts : List Contact) (r : Request)
    (h : Event.request r ∈ (process_group_in_batches m bridge dec g contacts).2) :
    ∃ p, Event.request r ∈ (remove_group_participant m bridge g p).2 := by
  by_cases hc : ((planning_partition m contacts).1).isEmpty
  · simp [process_group_in_batches, hc] at h
  · simp only [process_group_in_batches, hc, if_false, Bool.false_eq_true,
      if_neg] at h
    obtain ⟨b, _, hb⟩ := run_batches_trace_mem m bridge g dec _ 1 _ h
    obtain ⟨c, _, hc⟩ := remove_batch_trace_mem m bridge g b r hb
    exact ⟨c.jid, hc⟩

end BatchRD

namespace GM

theorem gm_remove_whitelisted (m : GroupManager)
    (bridge : String → String → BridgeResponse) (g p : String)
    (h : is_whitelisted m p = true) :
    remove_group_participant m bridge g p =
      ({ jid := p, group_jid := g, success := false,
         message := "Skipped - contact is whitelisted",
         skipped := true, skip_reason := some "whitelisted" }, []) := by
  simp [remove_group_participant, h]

theorem gm_remove_cases (m : GroupManager)
    (bridge : String → String → BridgeResponse) (g p : String) :
    (is_whitelisted m p = true ∧
       remove_group_participant m bridge g p =
         ({ jid := p, group_jid := g, success := false,
            message := "Skipped - contact is whitelisted",
            skipped := true, skip_reason := some "whitelisted" }, []))
    ∨ (is_whitelisted m p = false ∧
       (remove_group_participant m bridge g p).1.skipped = false ∧
       (remove_group_participant m bridge g p).1.skip_reason = none ∧
       (remove_group_participant m bridge g p).1.jid = p ∧
       (remove_group_participant m bridge g p).2 =
         [Event.request
           { url := m.bridge_url ++ "/api/group/" ++ g ++ "/participants/remove",
             participants := [p], action := "remove", timeout := none }]) := by
  cases h : is_whitelisted m p with
  | true => exact Or.inl ⟨rfl, gm_remove_whitelisted m bridge g p h⟩
  | false =>
      refine Or.inr ⟨rfl, ?_⟩
      simp only [remove_group_participant, h]
      cases hb : bridge g p with
      | http s t =>
          by_cases hs : s = 200
          · subst hs; simp
          · simp [hs]
      | netError msg => simp

theorem gm_remove_skipped_eq (m : GroupManager)
    (bridge : String → String → BridgeResponse) (g p : String) :
    (remove_group_participant m bridge g p).1.skipped = is_whitelisted m p := by
  rcases gm_remove_cases m bridge g p with ⟨hw, heq⟩ | ⟨hw, hsk, _⟩
  · rw [heq, hw]
  · rw [hsk, hw]

theorem gm_remove_skipped_invariant (m : GroupManager)
    (bridge : String → String → BridgeResponse) (g p : String)
    (h : (remove_group_participant m bridge g p).1.skipped = true) :
    (remove_group_participant m bridge g p).1.success = false ∧
      (remove_group_participant m bridge g p).1.skip_reason = some "whitelisted" := by
  rcases gm_remove_cases m bridge g p with ⟨hw, heq⟩ | ⟨hw, hsk, _⟩
  · rw [heq]; exact ⟨rfl, rfl⟩
  · rw [hsk] at h; cases h

theorem gm_remove_skip_reason_whitelisted_no_call (m : GroupManager)
    (bridge : String → String → BridgeResponse) (g p : String)
    (h : (remove_group_participant m bridge g p).1.skip_reason = some "whitelisted") :
    (remove_group_participant m bridge g p).2 = [] := by
  rcases gm_remove_cases m bridge g p with ⟨hw, heq⟩ | ⟨hw, _, hsr, _⟩
  · rw [heq]
  · rw [hsr] at h; cases h

theorem gm_remove_trace_request (m : GroupManager)
    (bridge : String → String → BridgeResponse) (g p : String) (r : Request)
    (hr : Event.request r ∈ (remove_group_participant m bridge g p).2) :
    r.participants = [p] ∧ r.action = "remove" ∧ r.timeout = none ∧
      is_whitelisted m p = false := by
  rcases gm_remove_cases m bridge g p with ⟨hw, heq⟩ | ⟨hw, _, _, _, htr⟩
  · rw [heq] at hr; simp at hr
  · rw [htr] at hr
    have := List.mem_singleton.mp hr
    cases this
    exact ⟨rfl, rfl, rfl, hw⟩

theorem gm_remove_http_200 (m : GroupManager)
    (bridge : String → String → BridgeResponse) (g p text : String)
    (hw : is_whitelisted m p = false) (hb : bridge g p = .http 200 text) :
    (remove_group_participant m bridge g p).1 =
      { jid := p, group_jid := g, success := true,
        message := "Successfully removed from group" } := by
  simp [remove_group_participant, hw, hb]

theorem gm_remove_http_err (m : GroupManager)
    (bridge : String → String → BridgeResponse) (g p : String) (s : Nat)
    (text : String) (hw : is_whitelisted m p = false)
    (hb : bridge g p = .http s text) (hs : s ≠ 200) :
    (remove_group_participant m bridge g p).1 =
      { jid := p, group_jid := g, success := false,
        message := "HTTP " ++ toString s ++ ": " ++ text,
        error_code := some (toString s) } := by
  simp [remove_group_participant, hw, hb, hs]

theorem gm_remove_net_err (m : GroupManager)
    (bridge : String → String → BridgeResponse) (g p msg : String)
    (hw : is_whitelisted m p = false) (hb : bridge g p = .netError msg) :
    (remove_group_participant m bridge g p).1 =
      { jid := p, group_jid := g, success := false,
        message := "Request failed: " ++ msg } := by
  simp [remove_group_participant, hw, hb]

theorem bulk_results (m : GroupManager)
    (bridge : String → String → BridgeResponse) (g : String) (d : Nat) :
    ∀ jids : List String,
      (bulk_remove_participants m bridge g d jids).1 =
        jids.map (fun p => (remove_group_participant m bridge g p).1)
  | [] => by simp [bulk_remove_participants]
  | p :: rest => by
      simp [bulk_remove_participants, bulk_results m bridge g d rest]

theorem bulk_trace_mem (m : GroupManager)
    (bridge : String → String → BridgeResponse) (g : String) (d : Nat) :
    ∀ (jids : List String) (r : Request),
      Event.request r ∈ (bulk_remove_participants m bridge g d jids).2 →
      ∃ p ∈ jids, Event.request r ∈ (remove_group_participant m bridge g p).2
  | [], r, h => by simp [bulk_remove_participants] at h
  | p :: rest, r, h => by
      simp only [bulk_remove_participants, List.mem_append] at h
      rcases h with (h | h) | h
      · exact ⟨p, List.mem_cons_self p rest, h⟩
      · exfalso
        rcases Decidable.em
            (!(remove_group_participant m bridge g p).1.skipped
              ∧ ¬ rest.isEmpty) with hc | hc
        · rw [if_pos hc] at h; simp at h
        · rw [if_neg hc] at h; simp at h
      · obtain ⟨p', hp', hr⟩ := bulk_trace_mem m bridge g d rest r h
        exact ⟨p', List.mem_cons_of_mem p hp', hr⟩

end GM

theorem parse_whitelist_mem :
    ∀ (lines : List String) (x : String),
      x ∈ parse_whitelist lines ↔
        (∃ l ∈ lines, strip l = x) ∧ x ≠ "" ∧ starts_with_hash x = false
  | [], x => by simp [parse_whitelist]
  | line :: rest, x => by
      have ih := parse_whitelist_mem rest x
      by_cases h : strip line ≠ "" ∧ ¬ starts_with_hash (strip line)
      · have hstep : parse_whitelist (line :: rest) =
            strip line :: parse_whitelist rest := by
          simp [parse_whitelist, h]
        rw [hstep, List.mem_cons, ih]
        constructor
        · rintro (rfl | ⟨⟨l, hl, hlx⟩, hx1, hx2⟩)
          · exact ⟨⟨line, List.mem_cons_self _ _, rfl⟩, h.1,
              Bool.not_eq_true _ ▸ Bool.of_not_eq_true h.2⟩
          · exact ⟨⟨l, List.mem_cons_of_mem _ hl, hlx⟩, hx1, hx2⟩
        · rintro ⟨⟨l, hl, hlx⟩, hx1, hx2⟩
          rcases List.mem_cons.mp hl with heq | hl
          · exact Or.inl (heq ▸ hlx).symm
          · exact Or.inr ⟨⟨l, hl, hlx⟩, hx1, hx2⟩
      · have hstep : parse_whitelist (line :: rest) = parse_whitelist rest := by
          rw [parse_whitelist, if_neg h]
        rw [hstep, ih]
        constructor
        · rintro ⟨⟨l, hl, hlx⟩, hx1, hx2⟩
          exact ⟨⟨l, List.mem_cons_of_mem _ hl, hlx⟩, hx1, hx2⟩
        · rintro ⟨⟨l, hl, hlx⟩, hx1, hx2⟩
          rcases List.mem_cons.mp hl with heq | hl
          · exfalso
            apply h
            subst heq
            rw [hlx]
            exact ⟨hx1, by rw [hx2]; exact Bool.false_ne_true⟩
          · exact ⟨⟨l, hl, hlx⟩, hx1, hx2⟩

/-- C9: whitelist loading is total (never raises): a missing file
yields the empty set in both loaders; a jid is in the loaded set
exactly when some delivered line strips to it and it is neither blank
nor a `#` comment; an I/O error raised after some lines were delivered
changes nothing about the set built from those lines (the set is
whatever was parsed before the error); and both loaders agree. -/
theorem C9_whitelist_loading (lines : List String) (e : Bool) (x : String) :
    GM.load_whitelist_from_file .missing = []
    ∧ BatchRD.load_whitelist .missing = []
    ∧ (x ∈ GM.load_whitelist_from_file (.content lines e) ↔
        (∃ l ∈ lines, strip l = x) ∧ x ≠ "" ∧ starts_with_hash x = false)
    ∧ GM.load_whitelist_from_file (.content lines e) =
        GM.load_whitelist_from_file (.content lines false)
    ∧ BatchRD.load_whitelist (.content lines e) =
        GM.load_whitelist_from_file (.content lines e) := by
  refine ⟨rfl, rfl, ?_, rfl, rfl⟩
  exact parse_whitelist_mem lines x

/-- Witness for C9 at a concrete file: comment and blank lines are
dropped, and a line that strips to `a@x` survives an I/O error raised
after it was read. -/
theorem C9_witness :
    "a@x" ∈ GM.load_whitelist_from_file (.content ["# comment", "", "  a@x  "] true) := by
  rw [(C9_whitelist_loading ["# comment", "", "  a@x  "] true "a@x").2.2.1]
  refine ⟨⟨"  a@x  ", ?_, ?_⟩, ?_, ?_⟩
  · decide
  · decide
  · decide
  · decide

/-- C8: if the operator answers quit for the batch at position
`bs1.length` (counting from the batch numbered `n`) and did not quit
earlier, the approval loop returns exactly the results and events
accumulated from the earlier batches: the quit batch and all later
batches contribute nothing, not even skipped entries. -/
theorem C8_quit_returns_partial_results (m : BatchRD.BatchGroupManager)
    (bridge : String → String → BridgeResponse) (g : String)
    (dec : Nat → BatchRD.Decision) (bs1 : List (List Contact))
    (b : List Contact) (bs2 : List (List Contact)) (n : Nat)
    (hq : dec (n + bs1.length) = .quit)
    (hprev : ∀ i, i < bs1.length → dec (n + i) ≠ .quit) :
    BatchRD.run_batches m bridge g dec (bs1 ++ b :: bs2) n =
      BatchRD.run_batches m bridge g dec bs1 n := by
  induction bs1 generalizing n with
  | nil =>
      have hn : dec n = .quit := by simpa using hq
      simp [BatchRD.run_batches, hn]
  | cons batch bs1 ih =>
      have hne : dec n ≠ .quit := hprev 0 (by simp)
      have hq' : dec (n + 1 + bs1.length) = .quit := by
        simp only [List.length_cons] at hq
        have harith : n + 1 + bs1.length = n + (bs1.length + 1) := by omega
        rw [harith]
        exact hq
      have hprev' : ∀ i, i < bs1.length → dec (n + 1 + i) ≠ .quit := by
        intro i hi
        have harith : n + 1 + i = n + (i + 1) := by omega
        rw [harith]
        exact hprev (i + 1) (by simp only [List.length_cons]; omega)
      have ihx := ih (n + 1) hq' hprev'
      cases hd : dec n with
      | proceed =>
          simp only [List.cons_append, BatchRD.run_batches, hd, List.append_eq]
          rw [ihx]
      | skipBatch =>
          simp only [List.cons_append, BatchRD.run_batches, hd, List.append_eq]
          rw [ihx]
      | quit => exact absurd hd hne

/-- Witness for C8: quitting at the second of two batches returns
exactly the first batch's results. -/
theorem C8_witness :
    BatchRD.run_batches mgr2 bridge_ok "g@g.us" (dec_quit_at 2)
        [[c_alice], [c_bob]] 1 =
      BatchRD.run_batches mgr2 bridge_ok "g@g.us" (dec_quit_at 2)
        [[c_alice]] 1 :=
  C8_quit_returns_partial_results mgr2 bridge_ok "g@g.us" (dec_quit_at 2)
    [[c_alice]] [c_bob] [] 1 (by decide)
    (by
      intro i hi
      have h0 : i = 0 := by simpa using hi
      subst h0
      decide)


/-- C1: no whitelisted identifier ever causes a remove-participant
request: in both script variants a whitelisted jid makes the removal
operation return a skipped RemovalResult with skip_reason
"whitelisted" and an empty event trace (no network call), any result
with skip_reason "whitelisted" has an empty trace, and every request
actually emitted by the batch coordinator or the bulk loop names only
non-whitelisted participants. -/
theorem C1_whitelisted_never_reaches_bridge
    (m : BatchRD.BatchGroupManager) (mg : GM.GroupManager)
    (bridge : String → String → BridgeResponse)
    (dec : Nat → BatchRD.Decision) (g p : String) (d : Nat)
    (contacts : List Contact) (jids : List String) :
    (BatchRD.is_whitelisted m p = true →
       (BatchRD.remove_group_participant m bridge g p).1.skipped = true ∧
       (BatchRD.remove_group_participant m bridge g p).1.skip_reason =
         some "whitelisted" ∧
       (BatchRD.remove_group_participant m bridge g p).2 = [])
    ∧ ((BatchRD.remove_group_participant m bridge g p).1.skip_reason =
         some "whitelisted" →
       (BatchRD.remove_group_participant m bridge g p).2 = [])
    ∧ (GM.is_whitelisted mg p = true →
       (GM.remove_group_participant mg bridge g p).1.skipped = true ∧
       (GM.remove_group_participant mg bridge g p).1.skip_reason =
         some "whitelisted" ∧
       (GM.remove_group_participant mg bridge g p).2 = [])
    ∧ ((GM.remove_group_participant mg bridge g p).1.skip_reason =
         some "whitelisted" →
       (GM.remove_group_participant mg bridge g p).2 = [])
    ∧ (∀ r : Request,
        Event.request r ∈
          (BatchRD.process_group_in_batches m bridge dec g contacts).2 →
        ∀ q ∈ r.participants, BatchRD.is_whitelisted m q = false)
    ∧ (∀ r : Request,
        Event.request r ∈ (GM.bulk_remove_participants mg bridge g d jids).2 →
        ∀ q ∈ r.participants, GM.is_whitelisted mg q = false) := by
  refine ⟨?_, ?_, ?_, ?_, ?_, ?_⟩
  · intro h
    rw [BatchRD.remove_whitelisted m bridge g p h]
    exact ⟨rfl, rfl, rfl⟩
  · exact BatchRD.remove_skip_reason_whitelisted_no_call m bridge g p
  · intro h
    rw [GM.gm_remove_whitelisted mg bridge g p h]
    exact ⟨rfl, rfl, rfl⟩
  · exact GM.gm_remove_skip_reason_whitelisted_no_call mg bridge g p
  · intro r hr q hq
    obtain ⟨pq, hpq⟩ := BatchRD.process_trace_mem m bridge dec g contacts r hr
    obtain ⟨hparts, _, _, hw⟩ := BatchRD.remove_trace_request m bridge g pq r hpq
    rw [hparts] at hq
    have hqp := List.mem_singleton.mp hq
    rw [hqp]
    exact hw
  · intro r hr q hq
    obtain ⟨pq, _, hpq⟩ := GM.bulk_trace_mem mg bridge g d jids r hr
    obtain ⟨hparts, _, _, hw⟩ := GM.gm_remove_trace_request mg bridge g pq r hpq
    rw [hparts] at hq
    have hqp := List.mem_singleton.mp hq
    rw [hqp]
    exact hw

/-- Witness for C1 at a concrete whitelisted jid: the result is skipped
and no event is emitted in either variant. -/
theorem C1_witness :
    BatchRD.is_whitelisted mgr0 "keep@s.whatsapp.net" = true
    ∧ (BatchRD.remove_group_participant mgr0 bridge_ok "g@g.us"
        "keep@s.whatsapp.net").2 = []
    ∧ (GM.remove_group_participant gm0 bridge_ok "g@g.us"
        "keep@s.whatsapp.net").2 = [] := by
  have h := C1_whitelisted_never_reaches_bridge mgr0 gm0 bridge_ok dec_proceed
    "g@g.us" "keep@s.whatsapp.net" 1 [] []
  exact ⟨by decide, (h.1 (by decide)).2.2, (h.2.2.1 (by decide)).2.2⟩

/-- C2 counterexample: a whitelisted contact fed to the batch
coordinator is not recorded in the returned result set at all — the
coordinator returns an empty list, with no RemovalResult carrying
skip_reason "whitelisted". -/
theorem C2_counterexample :
    BatchRD.is_whitelisted mgr0 c_keep.jid = true
    ∧ (BatchRD.process_group_in_batches mgr0 bridge_ok dec_proceed "g@g.us"
        [c_keep]).1 = [] := by
  exact ⟨by decide, rfl⟩

/-- C2 (amended): the batch coordinator filters whitelisted contacts
out at planning and never records them in the returned result set
(their count is only printed); in particular an all-whitelisted input
short-circuits to the empty result with no batch and no event.  It is
the sequential bulk loop of `group_management.py` that records each
whitelisted identifier as a RemovalResult with skipped=true,
skip_reason="whitelisted". -/
theorem C2_amended_whitelisted_reporting
    (m : BatchRD.BatchGroupManager) (mg : GM.GroupManager)
    (bridge : String → String → BridgeResponse) (dec : Nat → BatchRD.Decision)
    (g : String) (d : Nat) (contacts : List Contact) (jids : List String) :
    ((∀ c ∈ contacts, BatchRD.is_whitelisted m c.jid = true) →
       BatchRD.process_group_in_batches m bridge dec g contacts = ([], []))
    ∧ (∀ r ∈ (BatchRD.process_group_in_batches m bridge dec g contacts).1,
        r.skip_reason ≠ some "whitelisted")
    ∧ (∀ p ∈ jids, GM.is_whitelisted mg p = true →
        ({ jid := p, group_jid := g, success := false,
           message := "Skipped - contact is whitelisted",
           skipped := true, skip_reason := some "whitelisted" } : GM.RemovalResult)
          ∈ (GM.bulk_remove_participants mg bridge g d jids).1) := by
  refine ⟨?_, ?_, ?_⟩
  · intro h
    have hemp : (BatchRD.planning_partition m contacts).1 = [] := by
      simp only [BatchRD.planning_partition]
      rw [List.filter_eq_nil_iff]
      intro c hc
      simp [h c hc]
    simp [BatchRD.process_group_in_batches, hemp]
  · intro r hr
    rcases BatchRD.process_results_mem m bridge dec g contacts r hr with
      ⟨c, hc, he⟩ | ⟨c, he⟩
    · have hw : BatchRD.is_whitelisted m c.jid = false := by
        have h2 : c ∈ contacts ∧ BatchRD.is_whitelisted m c.jid = false := by
          simpa [BatchRD.planning_partition] using hc
        exact h2.2
      rcases BatchRD.remove_cases m bridge g c.jid with ⟨hw2, _⟩ | ⟨_, _, hsr, _⟩
      · rw [hw] at hw2; cases hw2
      · rw [he, hsr]; simp
    · rw [he]
      intro hcon
      have hstr : "user_skip" = "whitelisted" := by
        simpa [BatchRD.user_skip_result] using hcon
      exact absurd hstr (by decide)
  · intro p hp hw
    rw [GM.bulk_results]
    refine List.mem_map.mpr ⟨p, hp, ?_⟩
    rw [GM.gm_remove_whitelisted mg bridge g p hw]

/-- Witness for C2 (amended): an all-whitelisted input yields the empty
result, and the bulk loop records the whitelisted skip. -/
theorem C2_witness :
    BatchRD.process_group_in_batches mgr0 bridge_ok dec_proceed "g@g.us"
        [c_keep] = ([], [])
    ∧ ({ jid := "keep@s.whatsapp.net", group_jid := "g@g.us", success := false,
         message := "Skipped - contact is whitelisted", skipped := true,
         skip_reason := some "whitelisted" } : GM.RemovalResult)
        ∈ (GM.bulk_remove_participants gm0 bridge_ok "g@g.us" 1
            ["keep@s.whatsapp.net"]).1 := by
  have h := C2_amended_whitelisted_reporting mgr0 gm0 bridge_ok dec_proceed
    "g@g.us" 1 [c_keep] ["keep@s.whatsapp.net"]
  refine ⟨h.1 ?_, h.2.2 "keep@s.whatsapp.net" (by decide) (by decide)⟩
  intro c hc
  have hck := List.mem_singleton.mp hc
  rw [hck]
  decide

/-- C3 counterexample: an HTTP 200 response whose body is an explicit
failure payload (`success: false`) is still reported as a successful
removal by both variants — the body is never inspected, contradicting
the claim that such a response yields a REJECTED (failed) result. -/
theorem C3_counterexample :
    bridge_fail200 "g@g.us" "alice@s.whatsapp.net" =
      .http 200 "\x7b\"success\": false, \"message\": \"not admin\"\x7d"
    ∧ (BatchRD.remove_group_participant mgr0 bridge_fail200 "g@g.us"
        "alice@s.whatsapp.net").1.success = true
    ∧ (GM.remove_group_participant gm0 bridge_fail200 "g@g.us"
        "alice@s.whatsapp.net").1.success = true := by
  refine ⟨rfl, ?_, ?_⟩ <;> rfl

/-- C3 (amended): the removal operation is tri-state on the HTTP status
only — SUCCESS on any 200 response regardless of its body, REJECTED
(failed result preserving "HTTP {status}: {body}", plus error_code in
the GroupManager variant) on any non-200 status, and UNREACHABLE
(failed result with the transport message) on a raised network error. -/
theorem C3_amended_tristate (m : BatchRD.BatchGroupManager)
    (mg : GM.GroupManager) (bridge : String → String → BridgeResponse)
    (g p : String)
    (hw : BatchRD.is_whitelisted m p = false)
    (hw2 : GM.is_whitelisted mg p = false) :
    (∀ text, bridge g p = .http 200 text →
       (BatchRD.remove_group_participant m bridge g p).1 =
         { jid := p, group_jid := g, success := true,
           message := "Successfully removed from group" })
    ∧ (∀ s text, bridge g p = .http s text → s ≠ 200 →
       (BatchRD.remove_group_participant m bridge g p).1 =
         { jid := p, group_jid := g, success := false,
           message := "HTTP " ++ toString s ++ ": " ++ text })
    ∧ (∀ msg, bridge g p = .netError msg →
       (BatchRD.remove_group_participant m bridge g p).1 =
         { jid := p, group_jid := g, success := false,
           message := "Request failed: " ++ msg })
    ∧ (∀ text, bridge g p = .http 200 text →
       (GM.remove_group_participant mg bridge g p).1 =
         { jid := p, group_jid := g, success := true,
           message := "Successfully removed from group" })
    ∧ (∀ s text, bridge g p = .http s text → s ≠ 200 →
       (GM.remove_group_participant mg bridge g p).1 =
         { jid := p, group_jid := g, success := false,
           message := "HTTP " ++ toString s ++ ": " ++ text,
           error_code := some (toString s) })
    ∧ (∀ msg, bridge g p = .netError msg →
       (GM.remove_group_participant mg bridge g p).1 =
         { jid := p, group_jid := g, success := false,
           message := "Request failed: " ++ msg }) :=
  ⟨fun text hb => BatchRD.remove_http_200 m bridge g p text hw hb,
   fun s text hb hs => BatchRD.remove_http_err m bridge g p s text hw hb hs,
   fun msg hb => BatchRD.remove_net_err m bridge g p msg hw hb,
   fun text hb => GM.gm_remove_http_200 mg bridge g p text hw2 hb,
   fun s text hb hs => GM.gm_remove_http_err mg bridge g p s text hw2 hb hs,
   fun msg hb => GM.gm_remove_net_err mg bridge g p msg hw2 hb⟩

/-- Witness for C3 (amended): a raised transport error yields the
UNREACHABLE-style failed result. -/
theorem C3_witness :
    (BatchRD.remove_group_participant mgr0 bridge_down "g@g.us"
        "alice@s.whatsapp.net").1 =
      { jid := "alice@s.whatsapp.net", group_jid := "g@g.us", success := false,
        message := "Request failed: timeout" } := by
  have h := C3_amended_tristate mgr0 gm0 bridge_down "g@g.us"
    "alice@s.whatsapp.net" (by decide) (by decide)
  exact h.2.2.1 "timeout" rfl

/-- C4: for a batch size of at least 1 and a non-empty removable list,
the planning step produces exactly ceil(n/k) batches, every batch
except possibly the last has exactly k elements, and concatenating the
batches in order reproduces the removable list. -/
theorem C4_batching (bs : Nat) (l : List Contact) (hbs : 1 ≤ bs)
    (hl : l ≠ []) :
    (BatchRD.make_batches bs l).length = (l.length + bs - 1) / bs
    ∧ (∀ b ∈ (BatchRD.make_batches bs l).dropLast, b.length = bs)
    ∧ (BatchRD.make_batches bs l).flatten = l :=
  ⟨BatchRD.make_batches_length bs hbs l, BatchRD.make_batches_sizes bs hbs l,
   BatchRD.make_batches_join bs l⟩

/-- Witness for C4: three contacts in batches of two give two batches
whose concatenation is the input. -/
theorem C4_witness :
    (BatchRD.make_batches 2 [c_alice, c_bob, c_carol]).length = 2
    ∧ (BatchRD.make_batches 2 [c_alice, c_bob, c_carol]).flatten =
        [c_alice, c_bob, c_carol] := by
  have h := C4_batching 2 [c_alice, c_bob, c_carol] (by omega) (by simp)
  exact ⟨by simpa using h.1, h.2.2⟩

/-- C5: the planning split partitions the contact list exactly:
removable holds the contacts whose jid is not whitelisted, protected
the others; the two are disjoint, every contact is in exactly one, and
the lengths add up. -/
theorem C5_partition (m : BatchRD.BatchGroupManager)
    (contacts : List Contact) :
    (∀ c, c ∈ contacts ↔
       (c ∈ (BatchRD.planning_partition m contacts).1 ∨
        c ∈ (BatchRD.planning_partition m contacts).2))
    ∧ (∀ c, ¬(c ∈ (BatchRD.planning_partition m contacts).1 ∧
         c ∈ (BatchRD.planning_partition m contacts).2))
    ∧ (∀ c, c ∈ (BatchRD.planning_partition m contacts).1 ↔
        c ∈ contacts ∧ BatchRD.is_whitelisted m c.jid = false)
    ∧ (∀ c, c ∈ (BatchRD.planning_partition m contacts).2 ↔
        c ∈ contacts ∧ BatchRD.is_whitelisted m c.jid = true)
    ∧ (BatchRD.planning_partition m contacts).1.length +
        (BatchRD.planning_partition m contacts).2.length = contacts.length := by
  refine ⟨?_, ?_, ?_, ?_, ?_⟩
  · intro c
    cases hw : BatchRD.is_whitelisted m c.jid <;>
      simp [BatchRD.planning_partition, List.mem_filter, hw]
  · intro c
    simp only [BatchRD.planning_partition, List.mem_filter]
    rintro ⟨⟨_, h1⟩, ⟨_, h2⟩⟩
    simp [h2] at h1
  · intro c
    simp [BatchRD.planning_partition, List.mem_filter]
  · intro c
    simp [BatchRD.planning_partition, List.mem_filter]
  · simp only [BatchRD.planning_partition]
    induction contacts with
    | nil => rfl
    | cons c t ih =>
        cases hw : BatchRD.is_whitelisted m c.jid <;>
          simp [List.filter_cons, hw] <;> omega

/-- Witness for C5 at a two-contact list with one whitelisted entry. -/
theorem C5_witness :
    (BatchRD.planning_partition mgr0 [c_alice, c_keep]).1.length +
      (BatchRD.planning_partition mgr0 [c_alice, c_keep]).2.length = 2 := by
  have h := (C5_partition mgr0 [c_alice, c_keep]).2.2.2.2
  simpa using h

/-- C6: the batch loop visits every contact of the batch in order and
records one result per contact (failures are contained, nothing raises
past the loop); the number of sleeps equals the number of non-skipped,
non-last contacts and every sleep lasts delay_seconds; a mid-batch
transport failure produces a failed, non-skipped result at that
position while the rest of the batch is still attempted. -/
theorem C6_batch_loop (m : BatchRD.BatchGroupManager)
    (bridge : String → String → BridgeResponse) (g : String)
    (batch : List Contact) :
    (BatchRD.remove_batch m bridge g batch).1 =
      batch.map (fun c => (BatchRD.remove_group_participant m bridge g c.jid).1)
    ∧ ((BatchRD.remove_batch m bridge g batch).2.filter is_sleep).length =
        (batch.dropLast.filter
          (fun c => !(BatchRD.is_whitelisted m c.jid))).length
    ∧ (∀ n, Event.sleep n ∈ (BatchRD.remove_batch m bridge g batch).2 →
        n = m.delay_seconds)
    ∧ (∀ i c msg, batch.get? i = some c →
        BatchRD.is_whitelisted m c.jid = false →
        bridge g c.jid = .netError msg →
        (BatchRD.remove_batch m bridge g batch).1.get? i =
          some { jid := c.jid, group_jid := g, success := false,
                 message := "Request failed: " ++ msg }) := by
  refine ⟨BatchRD.remove_batch_results m bridge g batch,
    BatchRD.remove_batch_sleep_count m bridge g batch,
    BatchRD.remove_batch_sleep_duration m bridge g batch, ?_⟩
  intro i c msg hi hw hb
  rw [BatchRD.remove_batch_results, List.get?_map, hi]
  simp only [Option.map_some']
  rw [BatchRD.remove_net_err m bridge g c.jid msg hw hb]

/-- Witness for C6: Bob's removal raises a transport error mid-batch;
his result is a contained failure and both surrounding sleeps occur. -/
theorem C6_witness :
    ((BatchRD.remove_batch mgr2 bridge_bob_down "g@g.us"
        [c_alice, c_bob, c_carol]).2.filter is_sleep).length = 2
    ∧ (BatchRD.remove_batch mgr2 bridge_bob_down "g@g.us"
        [c_alice, c_bob, c_carol]).1.get? 1 =
      some { jid := "bob@s.whatsapp.net", group_jid := "g@g.us",
             success := false, message := "Request failed: timeout" } := by
  have h := C6_batch_loop mgr2 bridge_bob_down "g@g.us" [c_alice, c_bob, c_carol]
  refine ⟨?_, ?_⟩
  · rw [h.2.1]
    decide
  · exact h.2.2.2 1 c_bob "timeout" rfl (by decide) (by decide)

/-- C7 counterexample: `GroupManager.remove_group_participant` issues
its POST with no timeout argument at all, so not every removal request
carries a bounded 10–20s timeout. -/
theorem C7_counterexample :
    (GM.remove_group_participant gm0 bridge_ok "g@g.us"
        "alice@s.whatsapp.net").2 =
      [Event.request
        { url := "http://localhost:8080/api/group/g@g.us/participants/remove",
          participants := ["alice@s.whatsapp.net"], action := "remove",
          timeout := none }] := by
  rfl

/-- C7 (amended): requests issued by the batch-removal script carry a
bounded 15-second timeout (within the 10–20s band); requests issued by
`GroupManager.remove_group_participant` carry no timeout. -/
theorem C7_amended_timeout (m : BatchRD.BatchGroupManager)
    (mg : GM.GroupManager) (bridge : String → String → BridgeResponse)
    (g p : String) (r : Request) :
    (Event.request r ∈ (BatchRD.remove_group_participant m bridge g p).2 →
       r.timeout = some 15 ∧ 10 ≤ 15 ∧ 15 ≤ 20)
    ∧ (Event.request r ∈ (GM.remove_group_participant mg bridge g p).2 →
       r.timeout = none) := by
  constructor
  · intro hr
    obtain ⟨_, _, ht, _⟩ := BatchRD.remove_trace_request m bridge g p r hr
    exact ⟨ht, by omega, by omega⟩
  · intro hr
    obtain ⟨_, _, ht, _⟩ := GM.gm_remove_trace_request mg bridge g p r hr
    exact ht

/-- Witness for C7 (amended) at the two concrete requests actually
emitted by the two variants. -/
theorem C7_witness :
    ({ url := "http://localhost:8080/api/group/g@g.us/participants/remove",
       participants := ["alice@s.whatsapp.net"], action := "remove",
       timeout := some 15 } : Request).timeout = some 15
    ∧ ({ url := "http://localhost:8080/api/group/g@g.us/participants/remove",
         participants := ["alice@s.whatsapp.net"], action := "remove",
         timeout := none } : Request).timeout = none := by
  have h1 := (C7_amended_timeout mgr0 gm0 bridge_ok "g@g.us"
    "alice@s.whatsapp.net"
    { url := "http://localhost:8080/api/group/g@g.us/participants/remove",
      participants := ["alice@s.whatsapp.net"], action := "remove",
      timeout := some 15 }).1 (by decide)
  have h2 := (C7_amended_timeout mgr0 gm0 bridge_ok "g@g.us"
    "alice@s.whatsapp.net"
    { url := "http://localhost:8080/api/group/g@g.us/participants/remove",
      participants := ["alice@s.whatsapp.net"], action := "remove",
      timeout := none }).2 (by decide)
  exact ⟨h1.1, h2⟩

/-- C10: every skipped RemovalResult produced by the coordinator or the
bulk loop has success=false and skip_reason "whitelisted" or
"user_skip"; the failed tally keeps only results with success=false and
skipped=false, so skipped results are never counted as failures. -/
theorem C10_skipped_invariant (m : BatchRD.BatchGroupManager)
    (mg : GM.GroupManager) (bridge : String → String → BridgeResponse)
    (dec : Nat → BatchRD.Decision) (g : String) (d : Nat)
    (contacts : List Contact) (jids : List String) :
    (∀ r ∈ (BatchRD.process_group_in_batches m bridge dec g contacts).1,
       r.skipped = true →
       r.success = false ∧
         (r.skip_reason = some "whitelisted" ∨ r.skip_reason = some "user_skip"))
    ∧ (∀ r ∈ (GM.bulk_remove_participants mg bridge g d jids).1,
       r.skipped = true →
       r.success = false ∧
         (r.skip_reason = some "whitelisted" ∨ r.skip_reason = some "user_skip"))
    ∧ (∀ rs : List BatchRD.RemovalResult, ∀ r ∈ BatchRD.failed_results rs,
        r.success = false ∧ r.skipped = false)
    ∧ (∀ rs : List BatchRD.RemovalResult, ∀ r ∈ rs, r.skipped = true →
        r ∉ BatchRD.failed_results rs)
    ∧ (∀ rs : List GM.RemovalResult, ∀ r ∈ GM.failed_results rs,
        r.success = false ∧ r.skipped = false) := by
  refine ⟨?_, ?_, ?_, ?_, ?_⟩
  · intro r hr hsk
    rcases BatchRD.process_results_mem m bridge dec g contacts r hr with
      ⟨c, _, he⟩ | ⟨c, he⟩
    · rw [he] at hsk ⊢
      obtain ⟨h1, h2⟩ := BatchRD.remove_skipped_invariant m bridge g c.jid hsk
      exact ⟨h1, Or.inl h2⟩
    · rw [he]
      exact ⟨rfl, Or.inr rfl⟩
  · intro r hr hsk
    rw [GM.bulk_results] at hr
    obtain ⟨p, _, he⟩ := List.mem_map.mp hr
    rw [← he] at hsk ⊢
    obtain ⟨h1, h2⟩ := GM.gm_remove_skipped_invariant mg bridge g p hsk
    exact ⟨h1, Or.inl h2⟩
  · intro rs r hr
    simp only [BatchRD.failed_results, List.mem_filter, Bool.and_eq_true,
      Bool.not_eq_true'] at hr
    exact hr.2
  · intro rs r hr hsk hmem
    simp only [BatchRD.failed_results, List.mem_filter, Bool.and_eq_true,
      Bool.not_eq_true'] at hmem
    have hfalse := hmem.2.2
    rw [hsk] at hfalse
    simp at hfalse
  · intro rs r hr
    simp only [GM.failed_results, List.mem_filter, Bool.and_eq_true,
      Bool.not_eq_true'] at hr
    exact hr.2

/-- Witness for C10: a user-skip result is not counted by the failed
tally. -/
theorem C10_witness :
    BatchRD.user_skip_result "g@g.us" c_alice ∉
      BatchRD.failed_results [BatchRD.user_skip_result "g@g.us" c_alice] := by
  have h := C10_skipped_invariant mgr0 gm0 bridge_ok dec_proceed "g@g.us" 1 [] []
  exact h.2.2.2.1 [BatchRD.user_skip_result "g@g.us" c_alice]
    (BatchRD.user_skip_result "g@g.us" c_alice) (List.mem_singleton_self _) rfl

end WhatsappMCP
